import Mathlib

/-!
# Verification of the edition-commit core of the `event` service

This file gives a shallow embedding, in Lean 4, of the edition-commit
subsystem and the `state.read` handler of the `event` service:

* the gap analyzer `collect_gaps` of `src/app/operations/commit_edition.rs`,
* the event-cloning SQL of `clone_events` in the same file (full outer
  join of source events and edition changes, per-row field resolution,
  gap-driven time compression and the `ROW_NUMBER`-based tie-break),
* the failure dispatch of `CommitHandler::handle` in
  `src/app/endpoint/edition.rs`,
* the set-state response shaping and parameter validation of
  `ReadHandler::handle` in `src/app/endpoint/state.rs`.

Timestamps are modelled as unbounded integers (`Int`), with the i64
restrictions of the source made explicit where they matter (the
`chrono::Duration::num_nanoseconds` overflow check).  SQL `NULL` is
modelled by `Option`; JSON values by a small inductive type `Json`.
-/

/-- A minimal model of the JSON values stored in `event.data` /
`change.event_data`.  Only object field lookup and string extraction are
needed by the embedded code (`data.get("cut").and_then(|v| v.as_str())`). -/
inductive Json where
  | null : Json
  | bool (b : Bool) : Json
  | num (n : Int) : Json
  | str (s : String) : Json
  | arr (elems : List Json) : Json
  | obj (fields : List (String × Json)) : Json

/-- `serde_json::Value::get(key)` on an object: lookup of the first field
with the given key; `None` on non-objects. -/
def Json.get (j : Json) (key : String) : Option Json :=
  match j with
  | .obj fields => (fields.find? (fun f => f.1 = key)).map (·.2)
  | _ => none

/-- `serde_json::Value::as_str`. -/
def Json.asStr (j : Json) : Option String :=
  match j with
  | .str s => some s
  | _ => none

/-- A row of the `event` table (`crate::db::event::Object`), restricted to
the columns read by the commit engine and the state reader.  `deletedAt`
is the soft-deletion marker checked by `deleted_at IS NULL` in the
cloning SQL. -/
structure Event where
  id : Nat
  kind : String
  set : String
  label : Option String
  data : Json
  occurredAt : Int
  createdBy : String
  createdAt : Int
  deletedAt : Option Int

/-- `crate::db::change::ChangeType`. -/
inductive ChangeKind where
  | addition
  | modification
  | removal
deriving DecidableEq, Repr

/-- A row of the `change` table (`crate::db::change::Object`): optional
overrides for every editable event field, plus the referenced event id
(absent for additions). -/
structure Change where
  id : Nat
  kind : ChangeKind
  eventId : Option Nat
  eventKind : Option String
  eventSet : Option String
  eventLabel : Option String
  eventData : Option Json
  eventOccurredAt : Option Int
  eventCreatedBy : Option String

/-! ## Gap analyzer (`collect_gaps`) -/

/-- A cut marker fed to the gap analyzer: the extracted `"cut"` command of
a `stream` event or change, together with its `occurred_at`.  This is the
payload of `EventOrChangeAtDur` that the `collect_gaps` loop actually
inspects. -/
structure CutMarker where
  command : Option String
  occurredAt : Int
deriving DecidableEq, Repr

/-- `CutEventsToGapsState` of `commit_edition.rs`. -/
inductive GapState where
  | stopped : GapState
  | started (start : Int) (nestLvl : Nat) : GapState
deriving DecidableEq, Repr

/-- One iteration of the `collect_gaps` loop: given the current state and
a cut marker, either fail (the `bail!` arms) or return the next state and
the gap emitted by this step, if any. -/
def gapStep (state : GapState) (cut : CutMarker) :
    Except String (GapState × Option (Int × Int)) :=
  match cut.command, state with
  | some "start", .stopped => .ok (.started cut.occurredAt 0, none)
  | some "start", .started s n => .ok (.started s (n + 1), none)
  | some "stop", .started s 0 => .ok (.stopped, some (s, cut.occurredAt))
  | some "stop", .started s (n + 1) => .ok (.started s n, none)
  | _, _ => .error "invalid cut"

/-- The `collect_gaps` loop: fold `gapStep` over the markers, accumulating
emitted gaps.  Note that reaching the end of input returns `Ok` with the
accumulated gaps regardless of the final state — the source has no
end-of-input check. -/
def collectGapsLoop : GapState → List (Int × Int) → List CutMarker →
    Except String (List (Int × Int))
  | _, gaps, [] => .ok gaps
  | state, gaps, cut :: rest =>
    match gapStep state cut with
    | .error e => .error e
    | .ok (state2, none) => collectGapsLoop state2 gaps rest
    | .ok (state2, some gap) => collectGapsLoop state2 (gaps ++ [gap]) rest

/-- Stable insertion of `a` into `l`: `a` goes before the first element
`b` with `¬ le b a`, i.e. after all elements whose key is ≤ its own. -/
def stableInsert (le : α → α → Bool) (a : α) : List α → List α
  | [] => [a]
  | b :: bs => if le b a then b :: stableInsert le a bs else a :: b :: bs

/-- A stable ascending sort, modelling Rust's stable
`Vec::sort_by_key`. -/
def stableSort (le : α → α → Bool) : List α → List α
  | [] => []
  | a :: as_ => stableInsert le a (stableSort le as_)

/-- `cut_vec.sort_by_key(occurred_at)`. -/
def sortMarkers (markers : List CutMarker) : List CutMarker :=
  stableSort (fun a b => a.occurredAt ≤ b.occurredAt) markers

/-- `collect_gaps`: sort the cut markers by `occurred_at` (stably: events
were pushed before changes) and run the state machine from `Stopped` with
no gaps accumulated. -/
def collectGaps (markers : List CutMarker) : Except String (List (Int × Int)) :=
  collectGapsLoop .stopped [] (sortMarkers markers)

/-- Extraction of the cut marker of a source `stream` event:
`event.data().get("cut").and_then(|v| v.as_str())` with the event's
`occurred_at`. -/
def Event.cutMarker (e : Event) : CutMarker :=
  ⟨(e.data.get "cut").bind Json.asStr, e.occurredAt⟩

/-- Extraction of the cut marker of a `stream` change.  The source
unwraps `event_data` and `event_occurred_at` with `expect` (a panic when
absent); the partiality is modelled by `Option`. -/
def Change.cutMarker (c : Change) : Option CutMarker :=
  match c.eventData, c.eventOccurredAt with
  | some d, some t => some ⟨(d.get "cut").bind Json.asStr, t⟩
  | _, _ => none

/-- The marker multiset fed to `collect_gaps`: events first, then
changes, in fetch order. -/
def cutMarkersOf (cutEvents : List Event) (cutChanges : List Change) :
    Option (List CutMarker) :=
  (cutChanges.mapM Change.cutMarker).map
    (fun changeMarkers => cutEvents.map Event.cutMarker ++ changeMarkers)

/-! ## The spec-side two-state machine (§4.3 of the spec)

`gapStepSpec` is written from the spec's transition table, to be compared
with the source-derived `gapStep`:

| state | `cut=start` | `cut=stop` | other |
| Stopped | → Started(occurred_at, 0) | fail | fail |
| Started(s, n) | → Started(s, n+1) | n=0: emit [s, occurred_at), → Stopped; else → Started(s, n−1) | fail |
-/

/-- The transition table of spec §4.3, written from the spec's words. -/
def gapStepSpec (state : GapState) (cut : CutMarker) :
    Except String (GapState × Option (Int × Int)) :=
  match state with
  | .stopped =>
    if cut.command = some "start" then .ok (.started cut.occurredAt 0, none)
    else .error "invalid cut"
  | .started s n =>
    if cut.command = some "start" then .ok (.started s (n + 1), none)
    else if cut.command = some "stop" then
      if n = 0 then .ok (.stopped, some (s, cut.occurredAt))
      else .ok (.started s (n - 1), none)
    else .error "invalid cut"

/-- Running the spec machine over a marker list, with the same
accumulator discipline as the analyzer loop. -/
def collectGapsSpecLoop : GapState → List (Int × Int) → List CutMarker →
    Except String (List (Int × Int))
  | _, gaps, [] => .ok gaps
  | state, gaps, cut :: rest =>
    match gapStepSpec state cut with
    | .error e => .error e
    | .ok (state2, none) => collectGapsSpecLoop state2 gaps rest
    | .ok (state2, some gap) => collectGapsSpecLoop state2 (gaps ++ [gap]) rest

/-- The spec machine run over the occurred_at-sorted markers. -/
def collectGapsSpec (markers : List CutMarker) : Except String (List (Int × Int)) :=
  collectGapsSpecLoop .stopped [] (sortMarkers markers)

/-! ## Event cloning (`clone_events`)

The SQL of `clone_events` is embedded as a pure function on lists.  The
inner subquery is the full outer join of the source room's live events
(`deleted_at IS NULL`) and the edition's changes, keyed on
`change.event_id = event.id`, filtered to drop removal rows, with the
`CASE change.kind` field resolution; the outer query applies the
`ROW_NUMBER() OVER (PARTITION BY occurred_at ORDER BY created_at) - 1`
tie-break.

A scoping point that matters below: inside the correlated subquery

    SELECT COALESCE(SUM(LEAST(stop, occurred_at) - start), 0)
    FROM gaps WHERE start < occurred_at

the unqualified `occurred_at` is not a column of `gaps` and therefore
resolves to `event.occurred_at` of the enclosing join — not to the
`occurred_at` alias being defined in the same SELECT list.  For rows
with no event side (additions, dangling modifications) it is SQL NULL,
the `WHERE` never holds, and the compensation is `COALESCE(..., 0) = 0`.
-/

/-- A row produced by the cloning INSERT-SELECT (destination `event`
columns; `id`/`room_id` omitted). -/
structure Row where
  kind : Option String
  set : Option String
  label : Option String
  data : Option Json
  occurredAt : Option Int
  createdBy : Option String
  createdAt : Int

/-- The surviving rows of the full outer join: live source events joined
to their referencing changes (an event with no change passes alone; an
event with several changes yields one row per change), plus the changes
with no live partner event; rows whose change is a `removal` are
dropped. -/
def survivingPairs (events : List Event) (changes : List Change) :
    List (Option Event × Option Change) :=
  let live := events.filter (fun e => e.deletedAt = none)
  let matched := live.flatMap (fun e =>
    match changes.filter (fun c => c.eventId = some e.id) with
    | [] => [((some e : Option Event), (none : Option Change))]
    | cs => cs.map (fun c => (some e, some c)))
  let unmatched := changes.filter
    (fun c => !(live.any (fun e => c.eventId == some e.id)))
  (matched ++ unmatched.map (fun c => ((none : Option Event), some c))).filter
    (fun p => match p.2 with
      | some c => c.kind ≠ ChangeKind.removal
      | none => true)

/-- `CASE change.kind WHEN 'addition' THEN change.event_kind
WHEN 'modification' THEN COALESCE(change.event_kind, event.kind)
ELSE event.kind END`. -/
def rowKind (e? : Option Event) (c? : Option Change) : Option String :=
  match c? with
  | some c =>
    match c.kind with
    | .addition => c.eventKind
    | .modification => c.eventKind <|> e?.map Event.kind
    | .removal => e?.map Event.kind
  | none => e?.map Event.kind

/-- The `set` CASE: addition ⇒ `COALESCE(event_set, event_kind)`;
modification ⇒ `COALESCE(event_set, set, event_kind, kind)`;
else the event's `set`. -/
def rowSet (e? : Option Event) (c? : Option Change) : Option String :=
  match c? with
  | some c =>
    match c.kind with
    | .addition => c.eventSet <|> c.eventKind
    | .modification =>
      c.eventSet <|> e?.map Event.set <|> c.eventKind <|> e?.map Event.kind
    | .removal => e?.map Event.set
  | none => e?.map Event.set

/-- The `label` CASE. -/
def rowLabel (e? : Option Event) (c? : Option Change) : Option String :=
  match c? with
  | some c =>
    match c.kind with
    | .addition => c.eventLabel
    | .modification => c.eventLabel <|> e?.bind Event.label
    | .removal => e?.bind Event.label
  | none => e?.bind Event.label

/-- The `data` CASE. -/
def rowData (e? : Option Event) (c? : Option Change) : Option Json :=
  match c? with
  | some c =>
    match c.kind with
    | .addition => c.eventData
    | .modification => c.eventData <|> e?.map Event.data
    | .removal => e?.map Event.data
  | none => e?.map Event.data

/-- The base `occurred_at` CASE (before gap compensation): addition ⇒
the change's `event_occurred_at`; modification ⇒
`COALESCE(change.event_occurred_at, event.occurred_at)`; else the
event's `occurred_at`. -/
def rowBase (e? : Option Event) (c? : Option Change) : Option Int :=
  match c? with
  | some c =>
    match c.kind with
    | .addition => c.eventOccurredAt
    | .modification => c.eventOccurredAt <|> e?.map Event.occurredAt
    | .removal => e?.map Event.occurredAt
  | none => e?.map Event.occurredAt

/-- `CASE change.kind WHEN 'addition' THEN change.event_created_by ELSE
event.created_by END`. -/
def rowCreatedBy (e? : Option Event) (c? : Option Change) : Option String :=
  match c? with
  | some c =>
    match c.kind with
    | .addition => c.eventCreatedBy
    | _ => e?.map Event.createdBy
  | none => e?.map Event.createdBy

/-- The correlated gap-compensation subquery, keyed on the *source
event's* `occurred_at` (see the scoping note above): sum of
`LEAST(stop, occurred_at) - start` over the gaps with
`start < occurred_at`, and `0` when the row has no event side. -/
def gapCompensation (gaps : List (Int × Int)) (srcOccurredAt : Option Int) : Int :=
  match srcOccurredAt with
  | none => 0
  | some t => ((gaps.filter (fun g => g.1 < t)).map (fun g => min g.2 t - g.1)).sum

/-- One row of the inner subquery (pre tie-break). -/
def rowOfPair (gaps : List (Int × Int)) (now : Int)
    (p : Option Event × Option Change) : Row :=
  { kind := rowKind p.1 p.2
    set := rowSet p.1 p.2
    label := rowLabel p.1 p.2
    data := rowData p.1 p.2
    occurredAt := (rowBase p.1 p.2).map
      (fun b => b - gapCompensation gaps (p.1.map Event.occurredAt))
    createdBy := rowCreatedBy p.1 p.2
    createdAt := (p.1.map Event.createdAt).getD now }

/-- The inner subquery of the cloning SQL. -/
def rawRows (events : List Event) (changes : List Change)
    (gaps : List (Int × Int)) (now : Int) : List Row :=
  (survivingPairs events changes).map (rowOfPair gaps now)

/-- `ROW_NUMBER() OVER (PARTITION BY occurred_at ORDER BY created_at)`
for row `r` among `rows`, under the assumption that `created_at` values
are distinct within each `occurred_at` bucket (otherwise the SQL row
number is not deterministic): one plus the number of rows of the same
bucket with a smaller `created_at`. -/
def rowNumberInBucket (rows : List Row) (r : Row) : Nat :=
  ((rows.filter (fun x => x.occurredAt = r.occurredAt)).filter
    (fun x => x.createdAt < r.createdAt)).length + 1

/-- The tie-broken `occurred_at` of the outer SELECT:
`occurred_at + ROW_NUMBER() OVER (...) - 1`. -/
def finalOccurredAt (rows : List Row) (r : Row) : Option Int :=
  r.occurredAt.map (fun t => t + (rowNumberInBucket rows r : Int) - 1)

/-- `clone_events`: the inner subquery rows with the tie-broken
`occurred_at`. -/
def cloneEvents (events : List Event) (changes : List Change)
    (gaps : List (Int × Int)) (now : Int) : List Row :=
  let rows := rawRows events changes gaps now
  rows.map (fun r => { r with occurredAt := finalOccurredAt rows r })

/-- The spec's squeeze formula (§4.4 step 6), written from the spec's
words for comparison with the SQL-derived row computation:
`base_occurred_at − Σ min(stop, base_occurred_at) − start` over all gaps
with `start < base_occurred_at`. -/
def specSqueeze (gaps : List (Int × Int)) (base : Int) : Int :=
  base - ((gaps.filter (fun g => g.1 < base)).map
    (fun g => min g.2 base - g.1)).sum

/-- The contribution of one gap to the compensation sum at position `b`. -/
def gapContrib (b : Int) (g : Int × Int) : Int :=
  if g.1 < b then min g.2 b - g.1 else 0

/-! ## Commit pipeline (`call` of `commit_edition.rs`) and the commit
handler's failure dispatch (`CommitHandler::handle` of `edition.rs`) -/

/-- `std::ops::Bound` on a timestamp. -/
inductive TimeBound where
  | included (t : Int)
  | excluded (t : Int)
  | unbounded
deriving DecidableEq, Repr

/-- The room-duration validation of `call`: the time pair must be
`(Included(start), Excluded(stop))` with `stop > start`, otherwise the
commit bails with the invalid-duration error. -/
def roomDuration : TimeBound × TimeBound → Option Int
  | (.included start, .excluded stop) => if start < stop then some (stop - start) else none
  | _ => none

/-- The failure cases of the commit task: the two `bail!` validations of
`call`/`collect_gaps`, and storage errors (any failed query; these come
from the database and are opaque here). -/
inductive CommitError where
  | invalidRoomTime
  | invalidCutSequence (msg : String)
  | storage (msg : String)
deriving DecidableEq, Repr

/-- The result of a successful commit, restricted to what the claims
observe: the cloned destination rows (after the `stream` deletion) and
the computed gaps. -/
structure CommitOutput where
  rows : List Row
  gaps : List (Int × Int)

/-- The commit pipeline of `call` on already-fetched data: validate the
room duration, filter the cut events and cut changes, compute the gaps,
clone the events, and delete the `stream` rows of the destination.

The cut-event fetch (`EventListQuery ... kind("stream")`) and cut-change
fetch (`ChangeListQuery ... kind("stream")`) live in the `db` module,
absent from `src/`; they are modelled from the spec (§4.4 steps 2–3):
source events of kind `stream` not tombstoned, and changes whose
synthesized event kind is `stream`.  A `stream` change without
`event_data` or `event_occurred_at` makes the source panic (`expect`);
that partiality is the `none` result. -/
def commitEdition (time : TimeBound × TimeBound) (events : List Event)
    (changes : List Change) (now : Int) :
    Option (Except CommitError CommitOutput) :=
  match roomDuration time with
  | none => some (.error .invalidRoomTime)
  | some _dur =>
    let cutEvents := events.filter
      (fun e => e.kind = "stream" && e.deletedAt = none)
    let cutChanges := changes.filter (fun c => c.eventKind = some "stream")
    match cutMarkersOf cutEvents cutChanges with
    | none => none
    | some markers =>
      match collectGaps markers with
      | .error msg => some (.error (.invalidCutSequence msg))
      | .ok gaps =>
        let rows := cloneEvents events changes gaps now
        some (.ok ⟨rows.filter (fun r => r.kind ≠ some "stream"), gaps⟩)

/-- The application error kinds relevant to the embedded handlers
(`app::error::ErrorKind` is not under `src/`; the kinds and the
kind→status mapping are modelled from the spec's §7 table).
`edition_commit_task_failed` is broadcast-only and has no response
status. -/
inductive AppErrorKind where
  | editionCommitTaskFailed
  | editionNotFound
  | invalidStateSets
  | invalidRoomTime
  | dbQueryFailed
  | serializationFailed
deriving DecidableEq, Repr

/-- Modelled from the spec: the status column of the §7 error table
(the mapping lives in the error module, absent from `src/`).
Broadcast-only kinds map to `none`. -/
def AppErrorKind.status : AppErrorKind → Option Nat
  | .editionCommitTaskFailed => none
  | .editionNotFound => some 404
  | .invalidStateSets => some 422
  | .invalidRoomTime => some 422
  | .dbQueryFailed => some 500
  | .serializationFailed => some 500

/-- The outbound messages of the commit handler: the unicast response
(status code; its payload for the 202 is the empty object) and the
broadcast `edition.commit` notification with its `status` field and, for
errors, the kind of the attached svc error. -/
inductive OutMessage where
  | response (status : Nat)
  | broadcast (status : String) (errorKind : Option AppErrorKind)
deriving DecidableEq, Repr

/-- `CommitHandler::handle` after authorization: respond 202 Accepted at
once, and chain the detached task's broadcast notification, which wraps
*any* failure of `commit_edition` — validation or storage — into an
`EditionCommitTaskFailed` svc error with `status: "error"`. -/
def commitHandlerMessages (result : Except CommitError CommitOutput) :
    List OutMessage :=
  [ .response 202,
    match result with
    | .ok _ => .broadcast "success" none
    | .error _ => .broadcast "error" (some .editionCommitTaskFailed) ]

/-! ## State reader (`ReadHandler::handle` of `state.rs`) -/

/-- `MAX_SETS` of `state.rs`. -/
def MAX_SETS : Nat := 10

/-- `MAX_LIMIT_PER_SET` of `state.rs`. -/
def MAX_LIMIT_PER_SET : Int := 100

/-- The `sets` validation of `ReadHandler::handle`: an error message for
an empty list or for more than `MAX_SETS` entries (raised with kind
`invalid_state_sets`), `none` otherwise. -/
def validateSets (sets : List String) : Option String :=
  if sets.length = 0 then some "sets cannot be empty"
  else if sets.length > MAX_SETS then some "too many sets"
  else none

/-- `std::cmp::min(payload.limit.unwrap_or(MAX_LIMIT_PER_SET),
MAX_LIMIT_PER_SET)`. -/
def chooseLimit (payloadLimit : Option Int) : Int :=
  min (payloadLimit.getD MAX_LIMIT_PER_SET) MAX_LIMIT_PER_SET

/-- Largest `i64`, `2^63 - 1`. -/
def I64_MAX : Int := 9223372036854775807

/-- Smallest `i64`, `-2^63`. -/
def I64_MIN : Int := -9223372036854775808

/-- `chrono::Duration::num_nanoseconds`: the duration in nanoseconds
when it fits an `i64`, `None` otherwise.  Durations are already carried
in nanoseconds here. -/
def numNanoseconds (d : Int) : Option Int :=
  if I64_MIN ≤ d ∧ d ≤ I64_MAX then some d else none

/-- The `original_occurred_at` defaulting of `ReadHandler::handle`: the
payload value when present; else, for a `(Included(open),
Excluded(close))` room, `(close - open).num_nanoseconds().map(|n| n +
1).unwrap_or(i64::MAX)`; else the `invalid_room_time` error.  (At a
duration of exactly `i64::MAX` ns the source's `n + 1` overflows `i64`;
that single point is outside the modelled range.) -/
def defaultOriginalOccurredAt (time : TimeBound × TimeBound)
    (payloadOriginalOccurredAt : Option Int) : Except AppErrorKind Int :=
  match payloadOriginalOccurredAt with
  | some v => .ok v
  | none =>
    match time with
    | (.included openedAt, .excluded closedAt) =>
      .ok (((numNanoseconds (closedAt - openedAt)).map (· + 1)).getD I64_MAX)
    | _ => .error .invalidRoomTime

/-- The polymorphic shape of one set's entry in the `state.read`
response: a single event object, or an array of events. -/
inductive SetStateValue where
  | single (e : Event)
  | collection (es : List Event)

/-- The response shaping of `ReadHandler::handle`: if the serialized set
state's *first* event exists and has no `label` key, insert that event
object alone; otherwise insert the whole array.  (The event serializer,
in the `db` module absent from `src/`, skips a `None` label — observable
in the repository's own `read_state_multiple_sets` test — so "no label
key" is `label = none`.) -/
def setStateValue (setState : List Event) : SetStateValue :=
  match setState with
  | e :: _ => if e.label = none then .single e else .collection setState
  | [] => .collection setState

/-! ## Concrete inputs used by the counterexamples and witnesses -/

/-- A source event used as a neutral payload. -/
def mkMessage (id : Nat) (occurredAt createdAt : Int) : Event :=
  { id := id
    kind := "message"
    set := "messages"
    label := some ("message-" ++ toString id)
    data := .obj [("message", .str "m")]
    occurredAt := occurredAt
    createdBy := "test"
    createdAt := createdAt
    deletedAt := none }

/-- A `stream` cut event. -/
def mkCutEvent (id : Nat) (command : String) (occurredAt createdAt : Int) : Event :=
  { id := id
    kind := "stream"
    set := "stream"
    label := none
    data := .obj [("cut", .str command)]
    occurredAt := occurredAt
    createdBy := "test"
    createdAt := createdAt
    deletedAt := none }

/-- A `stream` cut addition change. -/
def mkCutChange (id : Nat) (command : String) (occurredAt : Int) : Change :=
  { id := id
    kind := .addition
    eventId := none
    eventKind := some "stream"
    eventSet := some "stream"
    eventLabel := none
    eventData := some (.obj [("cut", .str command)])
    eventOccurredAt := some occurredAt
    eventCreatedBy := some "test" }

/-- Scenario S2's source room: a cut pair at 3e9–4e9 ns from the source
events, an event inside the first cut and an event at 5e9 ns. -/
def s2Events : List Event :=
  [ mkCutEvent 10 "start" 3000000000 30,
    mkMessage 12 3500000000 35,
    mkCutEvent 11 "stop" 4000000000 40,
    mkMessage 13 5000000000 50 ]

/-- Scenario S2's edition: an added cut pair at 3.2e9–4.5e9 ns. -/
def s2Changes : List Change :=
  [ mkCutChange 20 "start" 3200000000,
    mkCutChange 21 "stop" 4500000000 ]

/-- A bounded room interval enclosing scenario S2. -/
def s2Time : TimeBound × TimeBound := (.included 0, .excluded 6000000000)

/-- C1's source event: a live event at 5 ns. -/
def c1Event : Event := mkMessage 1 5 100

/-- C1's change: a modification of `c1Event` moving it to 30 ns. -/
def c1Change : Change :=
  { id := 7
    kind := .modification
    eventId := some 1
    eventKind := none
    eventSet := none
    eventLabel := none
    eventData := none
    eventOccurredAt := some 30
    eventCreatedBy := none }

/-- C10's source event: a soft-deleted event. -/
def c10DeletedEvent : Event :=
  { mkMessage 1 1000 10 with deletedAt := some 2000 }

/-- C10's change: a modification referencing the soft-deleted event. -/
def c10Change : Change :=
  { id := 9
    kind := .modification
    eventId := some 1
    eventKind := some "message"
    eventSet := some "messages"
    eventLabel := some "message-1"
    eventData := some (.obj [("message", .str "edited")])
    eventOccurredAt := some 100
    eventCreatedBy := none }

/-- A live source event used by the C10 witness. -/
def c10LiveEvent : Event := mkMessage 2 500 20

/-- Three cloned rows: two colliding on squeezed `occurred_at` 0, and one
at the very next nanosecond 1. -/
def c5Rows : List Row :=
  [ { kind := some "message", set := some "messages", label := none
      data := none, occurredAt := some 0, createdBy := some "a", createdAt := 0 },
    { kind := some "message", set := some "messages", label := none
      data := none, occurredAt := some 0, createdBy := some "b", createdAt := 1 },
    { kind := some "message", set := some "messages", label := none
      data := none, occurredAt := some 1, createdBy := some "c", createdAt := 2 } ]

/-- An unlabeled event of the `layout` set. -/
def mkUnlabeled (id : Nat) (occurredAt : Int) : Event :=
  { id := id
    kind := "layout"
    set := "layout"
    label := none
    data := .obj [("name", .str "presentation")]
    occurredAt := occurredAt
    createdBy := "test"
    createdAt := occurredAt
    deletedAt := none }

lemma gapStep_eq_spec (state : GapState) (cut : CutMarker) :
    gapStep state cut = gapStepSpec state cut := by
  obtain ⟨cmd, t⟩ := cut
  cases cmd with
  | none => cases state <;> rfl
  | some s =>
    by_cases hstart : s = "start"
    · subst hstart
      cases state <;> simp [gapStep, gapStepSpec]
    · by_cases hstop : s = "stop"
      · subst hstop
        cases state with
        | stopped => simp [gapStep, gapStepSpec]
        | started st n =>
          cases n <;> simp [gapStep, gapStepSpec]
      · cases state <;>
          simp [gapStep, gapStepSpec, hstart, hstop]

lemma collectGapsLoop_eq_spec (markers : List CutMarker) :
    ∀ (state : GapState) (gaps : List (Int × Int)),
      collectGapsLoop state gaps markers = collectGapsSpecLoop state gaps markers := by
  induction markers with
  | nil => intro state gaps; rfl
  | cons cut rest ih =>
    intro state gaps
    simp only [collectGapsLoop, collectGapsSpecLoop, gapStep_eq_spec]
    cases gapStepSpec state cut with
    | error e => rfl
    | ok p =>
      obtain ⟨state2, g?⟩ := p
      cases g? <;> simp [ih]

/-- **C2.** The gap analyzer, run over the occurred_at-sorted multiset of
cut markers, behaves exactly as the two-state machine of the spec: in
`Stopped` a `cut=start` moves to `Started(occurred_at, 0)` and everything
else fails; in `Started(s, n)` a `cut=start` increments the nesting
level, a `cut=stop` at nesting 0 emits `[s, occurred_at)` and returns to
`Stopped`, a `cut=stop` at positive nesting decrements it, and everything
else fails.  Stated as: each analyzer step agrees with the spec's
transition table, and the whole analyzer run equals the spec machine's
run over the sorted markers. -/
theorem collect_gaps_is_spec_state_machine :
    (∀ (state : GapState) (cut : CutMarker), gapStep state cut = gapStepSpec state cut)
    ∧ (∀ markers : List CutMarker, collectGaps markers = collectGapsSpec markers) := by
  refine ⟨gapStep_eq_spec, fun markers => ?_⟩
  unfold collectGaps collectGapsSpec
  exact collectGapsLoop_eq_spec _ _ _

/-- **C3, counterexample.**  A single unmatched `cut=start` marker leaves
the analyzer in `Started` at end of input, yet `collect_gaps` returns
`Ok []` — the commit does *not* fail with a validation error; the open
cut is silently dropped. -/
theorem collect_gaps_unclosed_cut_no_error :
    collectGaps [⟨some "start", 1000000000⟩] = .ok [] := by
  rfl

/-- **C3, amended.**  An unclosed `Started` at end of input is *not* an
error: the `collect_gaps` loop returns `Ok` with the gaps accumulated so
far whatever the final state is (in particular in any `Started s n`
state), so the commit proceeds with the open cut discarded. -/
theorem collect_gaps_end_of_input_always_ok (state : GapState)
    (gaps : List (Int × Int)) :
    collectGapsLoop state gaps [] = .ok gaps := by
  rfl

/-! ## Squeeze arithmetic helpers -/

lemma specSqueeze_eq_contrib (gaps : List (Int × Int)) (b : Int) :
    specSqueeze gaps b = b - (gaps.map (gapContrib b)).sum := by
  unfold specSqueeze
  congr 1
  induction gaps with
  | nil => rfl
  | cons g gs ih =>
    by_cases h : g.1 < b
    · simp [List.filter_cons, h, gapContrib, ih]
    · simp [List.filter_cons, h, gapContrib, ih]

lemma gapContrib_of_le_start {s t : Int} {g : Int × Int} (hwf : g.1 ≤ g.2)
    (hle : g.2 ≤ s) (hst : s ≤ t) : gapContrib t g = gapContrib s g := by
  unfold gapContrib
  simp only [min_def]
  split_ifs <;> omega

lemma gapContrib_zero_of_after {t : Int} {g : Int × Int} (h : t ≤ g.1) :
    gapContrib t g = 0 := by
  unfold gapContrib
  rw [if_neg (by omega)]

lemma gapContrib_inside {t : Int} {g : Int × Int} (h1 : g.1 ≤ t) (h2 : t ≤ g.2) :
    gapContrib t g = t - g.1 := by
  unfold gapContrib
  simp only [min_def]
  split_ifs <;> omega

lemma specSqueeze_collapse {gaps : List (Int × Int)} {g : Int × Int} {t : Int}
    (hwf : ∀ g' ∈ gaps, g'.1 ≤ g'.2)
    (hord : gaps.Pairwise (fun a b => a.2 ≤ b.1))
    (hg : g ∈ gaps) (h1 : g.1 ≤ t) (h2 : t ≤ g.2) :
    specSqueeze gaps t = specSqueeze gaps g.1 := by
  obtain ⟨pre, post, rfl⟩ := List.append_of_mem hg
  rw [specSqueeze_eq_contrib, specSqueeze_eq_contrib, List.map_append,
    List.map_append, List.sum_append, List.sum_append, List.map_cons,
    List.map_cons, List.sum_cons, List.sum_cons]
  obtain ⟨-, hpost', hcross⟩ := List.pairwise_append.mp hord
  obtain ⟨hpost, -⟩ := List.pairwise_cons.mp hpost'
  have hpre_eq : (pre.map (gapContrib t)).sum = (pre.map (gapContrib g.1)).sum := by
    congr 1
    refine List.map_congr_left (fun a ha => ?_)
    exact gapContrib_of_le_start (hwf a (by simp [ha]))
      (hcross a ha g (by simp)) h1
  have hpost_t : (post.map (gapContrib t)).sum = 0 := by
    refine List.sum_eq_zero (fun x hx => ?_)
    obtain ⟨b, hb, rfl⟩ := List.mem_map.mp hx
    exact gapContrib_zero_of_after (le_trans h2 (hpost b hb))
  have hpost_s : (post.map (gapContrib g.1)).sum = 0 := by
    refine List.sum_eq_zero (fun x hx => ?_)
    obtain ⟨b, hb, rfl⟩ := List.mem_map.mp hx
    exact gapContrib_zero_of_after (le_trans (le_trans h1 h2) (hpost b hb))
  rw [hpre_eq, hpost_t, hpost_s, gapContrib_inside h1 h2,
    gapContrib_zero_of_after (le_refl g.1)]
  ring

/-- **C1, counterexample.**  A modification that moves its event from 5 ns
to 30 ns, with a single gap `[10, 20)`: the claim's formula (keyed on the
change-applied base `occurred_at = 30`) predicts `30 − (20 − 10) = 20`,
but the cloning SQL's correlated subquery is keyed on the *source
event's* `occurred_at = 5`, for which no gap qualifies, so the cloned row
lands at 30. -/
theorem clone_occurred_at_claim_counterexample :
    (rawRows [c1Event] [c1Change] [(10, 20)] 0).map Row.occurredAt = [some 30]
    ∧ specSqueeze [(10, 20)] 30 = 20
    ∧ ((30 : Int) ≠ 20) :=
  ⟨rfl, by decide, by decide⟩

/-- **C1, amended.**  The destination `occurred_at` of a surviving row is
`base_occurred_at` minus the gap sum keyed on the *source event's*
`occurred_at` (zero for rows with no event side, in particular
additions): a pass-through row and a modification without a time override
land exactly at the spec's squeeze `base − Σ_{start<base} (min(stop,
base) − start)`; an addition lands at its change-supplied
`event_occurred_at` with no compensation; a general modification lands at
its base minus the compensation at the source position; and for
well-formed ordered disjoint gaps an event inside a gap collapses to that
gap's start. -/
theorem clone_occurred_at_amended :
    (∀ (gaps : List (Int × Int)) (now : Int) (e : Event),
      (rowOfPair gaps now (some e, none)).occurredAt
        = some (specSqueeze gaps e.occurredAt))
    ∧ (∀ (gaps : List (Int × Int)) (now : Int) (e : Event) (c : Change),
        c.kind = .modification → c.eventOccurredAt = none →
        (rowOfPair gaps now (some e, some c)).occurredAt
          = some (specSqueeze gaps e.occurredAt))
    ∧ (∀ (gaps : List (Int × Int)) (now : Int) (c : Change),
        c.kind = .addition →
        (rowOfPair gaps now (none, some c)).occurredAt = c.eventOccurredAt)
    ∧ (∀ (gaps : List (Int × Int)) (now : Int) (e : Event) (c : Change),
        c.kind = .modification →
        (rowOfPair gaps now (some e, some c)).occurredAt
          = some ((c.eventOccurredAt.getD e.occurredAt)
              - gapCompensation gaps (some e.occurredAt)))
    ∧ (∀ (gaps : List (Int × Int)) (g : Int × Int) (t : Int),
        (∀ g' ∈ gaps, g'.1 ≤ g'.2) →
        gaps.Pairwise (fun a b => a.2 ≤ b.1) →
        g ∈ gaps → g.1 ≤ t → t ≤ g.2 →
        specSqueeze gaps t = specSqueeze gaps g.1) := by
  refine ⟨?_, ?_, ?_, ?_, ?_⟩
  · intro gaps now e
    simp [rowOfPair, rowBase, gapCompensation, specSqueeze]
  · intro gaps now e c hkind hocc
    simp [rowOfPair, rowBase, hkind, hocc, gapCompensation, specSqueeze,
      Option.orElse]
  · intro gaps now c hkind
    cases h : c.eventOccurredAt <;>
      simp [rowOfPair, rowBase, hkind, h, gapCompensation]
  · intro gaps now e c hkind
    cases h : c.eventOccurredAt <;>
      simp [rowOfPair, rowBase, hkind, h, gapCompensation, Option.orElse]
  · intro gaps g t hwf hord hg h1 h2
    exact specSqueeze_collapse hwf hord hg h1 h2

/-- **C1, amended, witness.** -/
theorem clone_occurred_at_amended_witness :
    (rowOfPair [(10, 20)] 0 (some c1Event, none)).occurredAt
        = some (specSqueeze [(10, 20)] c1Event.occurredAt)
    ∧ specSqueeze [(10, 20), (30, 40)] 35 = specSqueeze [(10, 20), (30, 40)] 30 :=
  ⟨clone_occurred_at_amended.1 [(10, 20)] 0 c1Event,
   clone_occurred_at_amended.2.2.2.2 [(10, 20), (30, 40)] (30, 40) 35
     (by decide) (by decide) (by decide) (by decide) (by decide)⟩

/-- **C4, counterexample.**  With a source cut pair at 3e9–4e9 ns and an
edition-added cut pair at 3.2e9–4.5e9 ns, the analyzer's nesting merges
the overlapping cuts into the single gap `[3e9, 4.5e9)` — not the two
gaps `[3e9, 4e9)` and `[3.2e9, 4.5e9)` of the claim — and the event at
5e9 ns lands at `5e9 − 1.5e9 = 3.5e9` ns, not at 2.7e9 ns (the event at
3.5e9 ns does collapse onto the gap start, reaching 3e9 + 1 ns after the
tie-break against the cut-start row sharing its bucket). -/
theorem commit_overlapping_cuts_counterexample :
    (commitEdition s2Time s2Events s2Changes 999).map
        (Except.map (fun o => (o.gaps, o.rows.map Row.occurredAt)))
      = some (.ok ([((3000000000 : Int), (4500000000 : Int))],
          [some 3000000001, some 3500000000]))
    ∧ ([((3000000000 : Int), (4500000000 : Int))]
        ≠ [(3000000000, 4000000000), (3200000000, 4500000000)])
    ∧ ((3500000000 : Int) ≠ 2700000000) :=
  ⟨rfl, by decide, by decide⟩

/-- **C4, amended.**  On scenario S2's inputs the analyzer emits the
single merged gap `[3e9, 4.5e9)`; after commit the event at 3.5e9 ns
collapses to the gap's start (squeezed position 3e9 ns, shifted to
3e9 + 1 ns by the created_at tie-break against the cut-start marker in
the same bucket) and the event at 5e9 ns is placed at 3.5e9 ns. -/
theorem commit_overlapping_cuts_amended :
    (commitEdition s2Time s2Events s2Changes 999).map
        (Except.map (fun o => (o.gaps, o.rows.map Row.occurredAt)))
      = some (.ok ([((3000000000 : Int), (4500000000 : Int))],
          [some 3000000001, some 3500000000]))
    ∧ specSqueeze [(3000000000, 4500000000)] 3500000000 = 3000000000 :=
  ⟨rfl, by decide⟩

/-! ## Counting helper for the tie-break -/

lemma countP_lt_of_mem {α : Type} {l : List α} {p q : α → Bool}
    (hqp : ∀ x ∈ l, q x = true → p x = true) {a : α} (ha : a ∈ l)
    (hpa : p a = true) (hqa : q a = false) :
    l.countP q < l.countP p := by
  induction l with
  | nil => cases ha
  | cons x xs ih =>
    rw [List.countP_cons, List.countP_cons]
    rcases List.mem_cons.mp ha with rfl | hmem
    · rw [hpa, hqa]
      have hle : xs.countP q ≤ xs.countP p :=
        List.countP_mono_left (fun y hy hq => hqp y (List.mem_cons_of_mem _ hy) hq)
      simp
      omega
    · have hstep := ih (fun y hy => hqp y (List.mem_cons_of_mem _ hy)) hmem
      have hx : (if q x then 1 else 0) ≤ (if p x then 1 else 0) := by
        by_cases hqx : q x = true
        · rw [if_pos hqx, if_pos (hqp x (List.mem_cons_self _ _) hqx)]
        · rw [if_neg hqx]
          omega
      omega

/-- **C5, counterexample.**  Three cloned rows: two colliding on squeezed
`occurred_at = 0` (created_at 0 and 1) and one at the next nanosecond
`occurred_at = 1`.  The tie-break maps them to 0, 1 and 1: the second row
of the first bucket spills onto the first row of the next bucket, so the
final `occurred_at` values of the destination log are *not* strictly
increasing. -/
theorem tie_break_counterexample :
    c5Rows.map (finalOccurredAt c5Rows) = [some 0, some 1, some 1]
    ∧ ¬ List.Pairwise (fun a b => a < b) [(0 : Int), 1, 1] :=
  ⟨by decide, by decide⟩

/-- **C5, amended.**  Rows colliding on the same squeezed `occurred_at`
are ranked within the bucket by `created_at` ascending (assuming distinct
`created_at` values in the bucket) and the i-th row gets `i − 1` extra
nanoseconds: the final value is the squeezed value plus the number of
bucket rows with smaller `created_at`, the bucket's earliest row keeps
the exact squeezed value, and final values are strictly increasing
*within* each bucket — but not necessarily across buckets (see the
counterexample). -/
theorem tie_break_amended :
    (∀ (rows : List Row) (r : Row) (t : Int), r.occurredAt = some t →
      finalOccurredAt rows r
        = some (t + ((rows.filter (fun x => x.occurredAt = some t)).filter
            (fun x => x.createdAt < r.createdAt)).length))
    ∧ (∀ (rows : List Row) (r : Row) (t : Int), r.occurredAt = some t →
        (∀ x ∈ rows, x.occurredAt = some t → r.createdAt ≤ x.createdAt) →
        finalOccurredAt rows r = some t)
    ∧ (∀ (rows : List Row) (r1 r2 : Row) (t : Int), r1 ∈ rows →
        r1.occurredAt = some t → r2.occurredAt = some t →
        r1.createdAt < r2.createdAt →
        ∃ v1 v2, finalOccurredAt rows r1 = some v1
          ∧ finalOccurredAt rows r2 = some v2 ∧ v1 < v2) := by
  have hval : ∀ (rows : List Row) (r : Row) (t : Int), r.occurredAt = some t →
      finalOccurredAt rows r
        = some (t + ((rows.filter (fun x => x.occurredAt = some t)).filter
            (fun x => x.createdAt < r.createdAt)).length) := by
    intro rows r t ht
    unfold finalOccurredAt rowNumberInBucket
    rw [ht]
    simp only [Option.map_some']
    congr 1
    push_cast
    ring
  refine ⟨hval, ?_, ?_⟩
  · intro rows r t ht hmin
    rw [hval rows r t ht]
    have hnil : (rows.filter (fun x => x.occurredAt = some t)).filter
        (fun x => x.createdAt < r.createdAt) = [] := by
      rw [List.filter_eq_nil_iff]
      intro x hx
      have hxmem := List.mem_filter.mp hx
      have hocc : x.occurredAt = some t := of_decide_eq_true hxmem.2
      have := hmin x hxmem.1 hocc
      simp only [decide_eq_true_eq]
      omega
    rw [hnil]
    simp
  · intro rows r1 r2 t h1mem h1t h2t hlt
    refine ⟨_, _, hval rows r1 t h1t, hval rows r2 t h2t, ?_⟩
    have hcount : ((rows.filter (fun x => x.occurredAt = some t)).filter
          (fun x => x.createdAt < r1.createdAt)).length
        < ((rows.filter (fun x => x.occurredAt = some t)).filter
          (fun x => x.createdAt < r2.createdAt)).length := by
      rw [List.filter_filter, List.filter_filter,
        ← List.countP_eq_length_filter, ← List.countP_eq_length_filter]
      refine countP_lt_of_mem (fun x _ hq => ?_) h1mem ?_ ?_
      · simp only [Bool.and_eq_true, decide_eq_true_eq] at hq ⊢
        exact ⟨by omega, hq.2⟩
      · simp only [Bool.and_eq_true, decide_eq_true_eq]
        exact ⟨hlt, h1t⟩
      · simp only [Bool.and_eq_false_iff, decide_eq_false_iff_not]
        left
        omega
    omega

/-- **C5, amended, witness.** -/
theorem tie_break_amended_witness :
    c5Rows.get ⟨0, by decide⟩ ∈ c5Rows
    ∧ finalOccurredAt c5Rows (c5Rows.get ⟨0, by decide⟩) = some 0
    ∧ (∃ v1 v2, finalOccurredAt c5Rows (c5Rows.get ⟨0, by decide⟩) = some v1
        ∧ finalOccurredAt c5Rows (c5Rows.get ⟨1, by decide⟩) = some v2
        ∧ v1 < v2) :=
  ⟨List.get_mem _ _ _,
   tie_break_amended.2.1 c5Rows _ 0 rfl (by decide),
   tie_break_amended.2.2 c5Rows _ _ 0 (List.get_mem _ _ _) rfl rfl (by decide)⟩

/-- **C6, counterexample.**  A commit failing validation — here both a
bad room time (`[5, 3)`) and a bad cut sequence (a lone `cut=stop`) —
produces a 202 Accepted on the response channel and a broadcast
notification whose svc-error kind is `edition_commit_task_failed`, i.e.
exactly the storage-failure surface; no message with the validation
error's 422 status ever reaches the response channel. -/
theorem commit_validation_dispatch_counterexample :
    commitEdition (.included 5, .excluded 3) [] [] 0
        = some (.error .invalidRoomTime)
    ∧ commitEdition s2Time [mkCutEvent 10 "stop" 1000000000 10] [] 0
        = some (.error (.invalidCutSequence "invalid cut"))
    ∧ commitHandlerMessages (.error .invalidRoomTime)
        = [.response 202, .broadcast "error" (some .editionCommitTaskFailed)]
    ∧ commitHandlerMessages (.error (.invalidCutSequence "invalid cut"))
        = [.response 202, .broadcast "error" (some .editionCommitTaskFailed)]
    ∧ AppErrorKind.invalidRoomTime.status = some 422
    ∧ OutMessage.response 422 ∉ commitHandlerMessages (.error .invalidRoomTime) :=
  ⟨rfl, rfl, rfl, rfl, rfl, by decide⟩

/-- **C6, amended.**  Every failure of the detached commit task —
validation (bad room time, bad cut sequence) and storage alike — is
surfaced as an `edition_commit_task_failed` error on the broadcast
notification, while the response channel of the `edition.commit` request
always carries 202 Accepted; in particular every invalid room time makes
the commit fail with the room-time validation error before touching the
events. -/
theorem commit_failure_dispatch_amended :
    (∀ e : CommitError, commitHandlerMessages (.error e)
        = [.response 202, .broadcast "error" (some .editionCommitTaskFailed)])
    ∧ (∀ out : CommitOutput, commitHandlerMessages (.ok out)
        = [.response 202, .broadcast "success" none])
    ∧ (∀ (time : TimeBound × TimeBound), roomDuration time = none →
        ∀ (events : List Event) (changes : List Change) (now : Int),
          commitEdition time events changes now = some (.error .invalidRoomTime)) := by
  refine ⟨fun _ => rfl, fun _ => rfl, fun time htime events changes now => ?_⟩
  unfold commitEdition
  rw [htime]

/-- **C6, amended, witness.** -/
theorem commit_failure_dispatch_amended_witness :
    commitEdition (.included 5, .excluded 3) [mkMessage 1 10 10] [] 7
      = some (.error .invalidRoomTime) :=
  commit_failure_dispatch_amended.2.2 (.included 5, .excluded 3) (by decide)
    [mkMessage 1 10 10] [] 7

/-- **C7, counterexample.**  A set state of *two* unlabeled events: the
claim requires an array (the set does not resolve to a single unlabeled
event), but the handler only checks the first event's label and inserts
that single event object, discarding the second. -/
theorem state_value_two_unlabeled_counterexample :
    setStateValue [mkUnlabeled 1 2000, mkUnlabeled 2 1000]
        = .single (mkUnlabeled 1 2000)
    ∧ SetStateValue.single (mkUnlabeled 1 2000)
        ≠ .collection [mkUnlabeled 1 2000, mkUnlabeled 2 1000] :=
  ⟨rfl, fun h => SetStateValue.noConfusion h⟩

/-- **C7, amended.**  A set's entry in the `state.read` response map is
the first event object alone whenever the set state is non-empty and its
first event is unlabeled — regardless of how many events the set resolved
to — and the whole array otherwise (labeled first event, or empty
state).  For a set resolving to a single unlabeled event this gives the
claimed single-object shape. -/
theorem state_value_shape_amended :
    (∀ (e : Event) (es : List Event), e.label = none →
        setStateValue (e :: es) = .single e)
    ∧ (∀ (e : Event) (es : List Event), e.label ≠ none →
        setStateValue (e :: es) = .collection (e :: es))
    ∧ setStateValue [] = .collection [] := by
  refine ⟨fun e es h => ?_, fun e es h => ?_, rfl⟩
  · simp [setStateValue, h]
  · simp [setStateValue, h]

/-- **C7, amended, witness.** -/
theorem state_value_shape_amended_witness :
    setStateValue [mkUnlabeled 3 1] = .single (mkUnlabeled 3 1) :=
  state_value_shape_amended.1 (mkUnlabeled 3 1) [] rfl

/-- **C8, counterexample.**  A bounded room whose duration is 2^63 ns —
one beyond `i64::MAX` — bounded in the sense of the claim, yet the
defaulted cursor is `i64::MAX`, not `closed_at − opened_at + 1 = 2^63 +
1`: `chrono::Duration::num_nanoseconds` returns `None` and the handler
falls back to `i64::MAX`. -/
theorem default_cursor_overflow_counterexample :
    defaultOriginalOccurredAt
        (.included 0, .excluded 9223372036854775808) none
        = .ok 9223372036854775807
    ∧ ((9223372036854775807 : Int) ≠ 9223372036854775808 + 1) :=
  ⟨rfl, by decide⟩

/-- **C8, amended.**  When `state.read` omits `original_occurred_at` on a
room with bounded time `[opened_at, closed_at)`, the cursor defaults to
`closed_at − opened_at + 1` ns provided the room duration in nanoseconds
fits an `i64` (staying below `i64::MAX`, where the source's `n + 1` would
overflow); when the duration exceeds `i64::MAX` the cursor defaults to
`i64::MAX` itself. -/
theorem default_cursor_amended :
    ∀ openedAt closedAt : Int,
      (I64_MIN ≤ closedAt - openedAt → closedAt - openedAt < I64_MAX →
        defaultOriginalOccurredAt (.included openedAt, .excluded closedAt) none
          = .ok (closedAt - openedAt + 1))
      ∧ (closedAt - openedAt > I64_MAX →
        defaultOriginalOccurredAt (.included openedAt, .excluded closedAt) none
          = .ok I64_MAX) := by
  intro openedAt closedAt
  constructor
  · intro hlo hhi
    simp [defaultOriginalOccurredAt, numNanoseconds, hlo, le_of_lt hhi]
  · intro h
    have hcond : ¬ (I64_MIN ≤ closedAt - openedAt ∧ closedAt - openedAt ≤ I64_MAX) := by
      simp only [I64_MIN, I64_MAX] at h ⊢
      omega
    simp only [defaultOriginalOccurredAt, numNanoseconds]
    rw [if_neg hcond]
    rfl

/-- **C8, amended, witness.** -/
theorem default_cursor_amended_witness :
    defaultOriginalOccurredAt (.included 0, .excluded 3600000000000) none
      = .ok 3600000000001 :=
  (default_cursor_amended 0 3600000000000).1 (by decide) (by decide)

/-- **C9.**  The `sets` validation of `state.read` raises the
`invalid_state_sets` error (422 per the spec's error table) exactly when
the list is empty or longer than 10, and passes exactly for lengths 1
through 10. -/
theorem state_sets_validation :
    (∀ sets : List String,
      (validateSets sets).isSome ↔ (sets.length = 0 ∨ sets.length > 10))
    ∧ (∀ sets : List String,
      validateSets sets = none ↔ (1 ≤ sets.length ∧ sets.length ≤ 10))
    ∧ AppErrorKind.invalidStateSets.status = some 422 := by
  refine ⟨fun sets => ?_, fun sets => ?_, rfl⟩
  · unfold validateSets MAX_SETS
    by_cases h0 : sets.length = 0
    · rw [if_pos h0]
      simp [h0]
    · rw [if_neg h0]
      by_cases h10 : sets.length > 10
      · rw [if_pos h10]
        simp
        omega
      · rw [if_neg h10]
        simp only [Option.isSome_none, Bool.false_eq_true, false_iff]
        omega
  · unfold validateSets MAX_SETS
    by_cases h0 : sets.length = 0
    · rw [if_pos h0]
      constructor
      · intro hc
        exact Option.noConfusion hc
      · intro hc
        exfalso
        omega
    · rw [if_neg h0]
      by_cases h10 : sets.length > 10
      · rw [if_pos h10]
        constructor
        · intro hc
          exact Option.noConfusion hc
        · intro hc
          exfalso
          omega
      · rw [if_neg h10]
        constructor
        · intro _
          omega
        · intro _
          rfl

/-- **C10, counterexample.**  A modification change referencing a
soft-deleted source event: the deleted event is excluded from the join,
so the change survives as a change-only row — a row inserted into the
destination that derives neither from a source event with `deleted_at`
unset nor from an addition change. -/
theorem clone_deleted_modification_counterexample :
    survivingPairs [c10DeletedEvent] [c10Change] = [(none, some c10Change)]
    ∧ c10Change.kind = .modification
    ∧ c10Change.kind ≠ .addition
    ∧ c10DeletedEvent.deletedAt = some 2000 :=
  ⟨rfl, rfl, by decide, rfl⟩

/-- **C10, amended.**  Every surviving row of the cloning join either
carries a source event that is a member of the source list with
`deleted_at` unset, or carries no event and derives from a *non-removal*
change (an addition, or a modification whose referenced event is absent
or soft-deleted); any change attached to a surviving row is a non-removal
member of the change list.  In particular no soft-deleted source event
ever contributes a row to the destination room, and rows matched by a
removal change are dropped. -/
theorem clone_row_provenance_amended :
    ∀ (events : List Event) (changes : List Change)
      (p : Option Event × Option Change), p ∈ survivingPairs events changes →
      (∀ e : Event, p.1 = some e → e ∈ events ∧ e.deletedAt = none)
      ∧ (∀ c : Change, p.2 = some c → c ∈ changes ∧ c.kind ≠ .removal)
      ∧ (p.1 = none →
          ∃ c : Change, p.2 = some c ∧ c ∈ changes ∧ c.kind ≠ .removal) := by
  intro events changes p hp
  simp only [survivingPairs] at hp
  rw [List.mem_filter] at hp
  obtain ⟨hmem, hpred⟩ := hp
  rcases List.mem_append.mp hmem with hm | hu
  · obtain ⟨e, heLive, hpe⟩ := List.mem_flatMap.mp hm
    obtain ⟨heMem, heDel⟩ := List.mem_filter.mp heLive
    have heDel' : e.deletedAt = none := of_decide_eq_true heDel
    cases hcs : changes.filter (fun c => c.eventId = some e.id) with
    | nil =>
      rw [hcs] at hpe
      have hpeq : p = (some e, none) := List.mem_singleton.mp hpe
      subst hpeq
      refine ⟨fun e' he' => ?_, fun c hc => Option.noConfusion hc,
        fun habs => Option.noConfusion habs⟩
      obtain rfl : e = e' := Option.some.inj he'
      exact ⟨heMem, heDel'⟩
    | cons c0 cs0 =>
      rw [hcs] at hpe
      obtain ⟨c, hcMem, hpeq⟩ := List.mem_map.mp hpe
      subst hpeq
      rw [← hcs] at hcMem
      have hcChanges : c ∈ changes := (List.mem_filter.mp hcMem).1
      have hcKind : c.kind ≠ .removal := of_decide_eq_true hpred
      refine ⟨fun e' he' => ?_, fun c' hc' => ?_, fun habs => Option.noConfusion habs⟩
      · obtain rfl : e = e' := Option.some.inj he'
        exact ⟨heMem, heDel'⟩
      · obtain rfl : c = c' := Option.some.inj hc'
        exact ⟨hcChanges, hcKind⟩
  · obtain ⟨c, hcMem, hpeq⟩ := List.mem_map.mp hu
    subst hpeq
    have hcChanges : c ∈ changes := (List.mem_filter.mp hcMem).1
    have hcKind : c.kind ≠ .removal := of_decide_eq_true hpred
    exact ⟨fun e' he' => Option.noConfusion he',
      fun c' hc' => by
        obtain rfl : c = c' := Option.some.inj hc'
        exact ⟨hcChanges, hcKind⟩,
      fun _ => ⟨c, rfl, hcChanges, hcKind⟩⟩

/-- **C10, amended, witness.** -/
theorem clone_row_provenance_amended_witness :
    c10LiveEvent ∈ [c10LiveEvent] ∧ c10LiveEvent.deletedAt = none :=
  (clone_row_provenance_amended [c10LiveEvent] [] (some c10LiveEvent, none)
      (List.mem_singleton.mpr rfl)).1 c10LiveEvent rfl
